import Mathlib

/-!
Verification of the graphiti-fastmcp access-control middleware and tool
handlers, shallowly embedded from the Python sources:

* `src/services/auth_service.py`   — token → principal lookup
* `src/middleware/auth.py`         — bearer-token authentication middleware
* `src/middleware/authorization.py`— role-based authorization middleware
* `src/server.py`                  — tool handlers (add_memory,
  search_memory_facts, clear_graph)
* the namespace ingestion queue (queue_service), modelled from the spec
  because its source file is not part of the reviewed tree.

Python `dict`s are embedded as association lists, exceptions as
`Except`, logging as an explicit list of log lines, and the async
middleware hooks as functions taking an explicit continuation `next`.
-/

namespace Graphiti

/-- A resolved identity: `{user_id, role}` as stored in the API-key map
(`auth_service.py`).  A missing/empty Python value is embedded as `""`. -/
structure Principal where
  user_id : String
  role : String
deriving DecidableEq

/-- Payload of a raised `McpError` (code and message). -/
structure ErrorData where
  code : Int
  message : String
deriving DecidableEq

/-- `AuthService.api_keys`: token → principal mapping. -/
abbrev AuthService := List (String × Principal)

/-- `AuthService.validate_token`: `self.api_keys.get(token)`. -/
def validate_token (svc : AuthService) (token : String) : Option Principal :=
  svc.lookup token

/-- HTTP headers as delivered by `get_http_headers()`; `none` embeds the
non-HTTP (stdio) transport where no header context exists. -/
abbrev Headers := List (String × String)

/-- `headers.get(key, '')`. -/
def header_get (headers : Headers) (key : String) : String :=
  match headers.lookup key with
  | some v => v
  | none => ""

/-- `headers.get('authorization', '') or headers.get('Authorization', '')`
(Python `or`: the second lookup is used when the first is falsy). -/
def get_auth_header (headers : Headers) : String :=
  let a := header_get headers "authorization"
  if a = "" then header_get headers "Authorization" else a

/-- Python `str.startswith(pre)`, embedded on the character data
(equivalent to `String.startsWith`, but kernel-reducible). -/
def starts_with (s pre : String) : Bool :=
  pre.data.isPrefixOf s.data

/-- Python `str.lower()`, embedded on the character data. -/
def lower (s : String) : String :=
  String.mk (s.data.map Char.toLower)

/-- Token truncation for logs (`auth.py` line 100):
`token[:8] + '...' if len(token) > 8 else 'invalid'`. -/
def truncate_token (token : String) : String :=
  if token.length > 8 then token.take 8 ++ "..." else "invalid"

/-- `BearerTokenAuthMiddleware._authenticate`, returning the raised
error or the principal, paired with the log lines it emits. -/
def authenticate (svc : AuthService) (headers : Option Headers) :
    Except ErrorData Principal × List String :=
  match headers with
  | none =>
    (Except.error ⟨-32000, "Authentication unavailable over this transport"⟩,
     ["Auth failed: No HTTP context available (likely Stdio transport)"])
  | some hs =>
    let auth_header := get_auth_header hs
    if auth_header = "" then
      (Except.error ⟨-32000, "Missing Authorization header"⟩,
       ["Authentication failed: Missing Authorization header"])
    else if starts_with auth_header "Bearer " then
      let token := auth_header.drop 7
      match validate_token svc token with
      | none =>
        (Except.error ⟨-32000, "Invalid or expired API key"⟩,
         ["Authentication failed: Invalid token=" ++ truncate_token token])
      | some p =>
        (Except.ok p,
         ["Authentication successful: user_id=" ++ p.user_id ++ ", role=" ++ p.role])
    else
      (Except.error
        ⟨-32000, "Invalid Authorization header format. Expected: Bearer <token>"⟩,
       ["Authentication failed: Invalid header format"])

/-- `BearerTokenAuthMiddleware.on_call_tool` (Execute path): authenticate
strictly, store the principal in context state when a fastmcp context is
present (`has_ctx`), then run the handler `next`. -/
def on_call_tool {α : Type} (svc : AuthService) (headers : Option Headers)
    (has_ctx : Bool) (next : Option Principal → α) :
    Except ErrorData α × List String :=
  match authenticate svc headers with
  | (Except.error e, log) => (Except.error e, log)
  | (Except.ok p, log) =>
    (Except.ok (next (if has_ctx then some p else none)), log)

/-- `BearerTokenAuthMiddleware.on_list_tools` (Discover path): try to
authenticate; on `McpError` swallow it and proceed without a principal. -/
def on_list_tools {α : Type} (svc : AuthService) (headers : Option Headers)
    (has_ctx : Bool) (next : Option Principal → α) :
    Except ErrorData α × List String :=
  match authenticate svc headers with
  | (Except.error _, log) =>
    (Except.ok (next none), log ++ ["Allowing unauthenticated tool listing"])
  | (Except.ok p, log) =>
    (Except.ok (next (if has_ctx then some p else none)), log)

/-- `BearerTokenAuthMiddleware.on_initialize` (Handshake path): the code
calls `_authenticate()` with no try/except, so failures propagate. -/
def on_handshake {α : Type} (svc : AuthService) (headers : Option Headers)
    (has_ctx : Bool) (next : Option Principal → α) :
    Except ErrorData α × List String :=
  match authenticate svc headers with
  | (Except.error e, log) => (Except.error e, log)
  | (Except.ok p, log) =>
    (Except.ok (next (if has_ctx then some p else none)), log)

/-- The role → allowed-tools policy table
(`RoleBasedAuthorizationMiddleware.policies`).  A Python dict embedded as
an association list where the head is the most recent assignment. -/
abbrev Policies := List (String × List String)

/-- `RoleBasedAuthorizationMiddleware._load_policies`: `none` embeds the
missing-file and malformed-JSON (exception) cases, which return `{}`;
`some entries` embeds a parsed `policies` array of `(role, resources)`
records, skipping records whose role is falsy.  Prepending makes lookup
see the latest assignment, mirroring dict overwrite. -/
def load_policies (src : Option (List (String × List String))) : Policies :=
  match src with
  | none => []
  | some entries =>
    entries.foldl (fun acc e => if e.1 = "" then acc else e :: acc) []

/-- `RoleBasedAuthorizationMiddleware._is_tool_allowed`. -/
def is_tool_allowed (policies : Policies) (role tool_name : String) : Bool :=
  match policies.lookup role with
  | none => false
  | some allowed_tools =>
    if allowed_tools.contains "*" then true
    else allowed_tools.contains tool_name

/-- Caller-visible denial message raised by
`RoleBasedAuthorizationMiddleware.on_call_tool`. -/
def access_denied_message (tool_name role : String) : String :=
  "Access denied: tool \"" ++ tool_name ++ "\" not allowed for role \"" ++ role ++ "\""

/-- Server-log line for a denial (`logger.warning`). -/
def access_denied_log (role tool_name user_id : String) : String :=
  "Access denied: role=" ++ role ++ ", tool=" ++ tool_name ++ ", user=" ++ user_id

/-- `RoleBasedAuthorizationMiddleware.on_call_tool`: the authorization
gate.  `principal` is the context state set by the authentication gate
(`none` = absent), `tool_name` is the name extracted from the message
(`none` = not extractable).  Returns the outcome paired with the
warning-level log lines. -/
def authz_on_call_tool {α : Type} (policies : Policies)
    (principal : Option Principal) (tool_name : Option String)
    (next : Unit → α) : Except ErrorData α × List String :=
  match principal with
  | none => (Except.ok (next ()), [])
  | some p =>
    if p.role = "" then
      (Except.error ⟨-32000, "No role found in principal"⟩,
       ["No role found in principal for user=" ++ p.user_id])
    else
      match tool_name with
      | none =>
        (Except.ok (next ()),
         ["Authorization: Could not extract tool name from context"])
      | some t =>
        if is_tool_allowed policies p.role t then (Except.ok (next ()), [])
        else
          (Except.error ⟨-32000, access_denied_message t p.role⟩,
           [access_denied_log p.role t p.user_id])

/-! ## Tool handlers (`server.py`) -/

/-- `graphiti_core.nodes.EpisodeType` members. -/
inductive EpisodeType
  | text
  | message
  | json
deriving DecidableEq

/-- `EpisodeType[s]` lookup: `some` on a member name, `none` = KeyError. -/
def episode_type_of_name (s : String) : Option EpisodeType :=
  if s = "text" then some EpisodeType.text
  else if s = "message" then some EpisodeType.message
  else if s = "json" then some EpisodeType.json
  else none

/-- Warning logged when an unknown source kind falls back to text. -/
def unknown_source_warning (source : String) : String :=
  "Unknown source type \x27" ++ source ++ "\x27, using \x27text\x27"

/-- Source-kind resolution in `add_memory` (server.py lines 246-252):
default `text`; a truthy `source` is looked up lowercased, a KeyError
logs a warning and keeps `text`. -/
def resolve_episode_type (source : String) : EpisodeType × List String :=
  if source = "" then (EpisodeType.text, [])
  else
    match episode_type_of_name (lower source) with
    | some t => (t, [])
    | none => (EpisodeType.text, [unknown_source_warning source])

/-- The ingestion task handed to `queue_svc.add_episode`. -/
structure EpisodeTask where
  group_id : String
  name : String
  content : String
  source_description : String
  episode_type : EpisodeType
  uuid : Option String
deriving DecidableEq

/-- A tool handler result: `SuccessResponse` / `ErrorResponse`. -/
inductive ToolResponse
  | success (message : String)
  | error (message : String)
deriving DecidableEq

/-- `group_id or cfg.graphiti.group_id` in `add_memory`
(the configured default is a string, `""` = unset). -/
def effective_group_id (cfg_group_id : String) (group_id : Option String) : String :=
  match group_id with
  | some g => if g = "" then cfg_group_id else g
  | none => cfg_group_id

/-- `uuid=uuid or None` in the `add_episode` call. -/
def norm_uuid (uuid : Option String) : Option String :=
  match uuid with
  | some u => if u = "" then none else some u
  | none => none

/-- Acknowledgement message of a successful `add_memory`. -/
def add_memory_ack (name eff_group : String) : String :=
  "Episode \x27" ++ name ++ "\x27 queued for processing in group \x27" ++ eff_group ++ "\x27"

/-- `add_memory` (server.py lines 234-269): resolve the group and the
episode type, enqueue the task (the queue is an explicit list; spec §4.3:
enqueue never fails), and acknowledge.  Returns
(response, new queue, warning log lines). -/
def add_memory (cfg_group_id : String) (queue : List EpisodeTask)
    (name episode_body : String) (group_id : Option String) (source : String)
    (source_description : String) (uuid : Option String) :
    ToolResponse × List EpisodeTask × List String :=
  let eff := effective_group_id cfg_group_id group_id
  let r := resolve_episode_type source
  let task : EpisodeTask :=
    ⟨eff, name, episode_body, source_description, r.1, norm_uuid uuid⟩
  (ToolResponse.success (add_memory_ack name eff), queue ++ [task], r.2)

/-- `effective_group_ids` of `clear_graph` (server.py line 450-452).  The
Python line `group_ids or [cfg.graphiti.group_id] if cfg.graphiti.group_id
else []` parses as `(group_ids or [default]) if default else []`, so with
no configured default the explicit list is discarded. -/
def clear_graph_effective_ids (cfg_group_id : String)
    (group_ids : Option (List String)) : List String :=
  if cfg_group_id = "" then []
  else
    match group_ids with
    | none => [cfg_group_id]
    | some l => if l = [] then [cfg_group_id] else l

/-- `clear_graph` (server.py lines 446-463): returns the response paired
with the list of group ids actually passed to `clear_data` ([] = the
engine was not called). -/
def clear_graph (cfg_group_id : String) (group_ids : Option (List String)) :
    ToolResponse × List String :=
  let eff := clear_graph_effective_ids cfg_group_id group_ids
  if eff = [] then (ToolResponse.error "No group IDs specified for clearing", [])
  else
    (ToolResponse.success
      ("Graph data cleared for group IDs: " ++ String.intercalate ", " eff), eff)

/-- Result type of `search_memory_facts`. -/
inductive FactsResult
  | facts (message : String) (facts : List String)
  | failure (message : String)
deriving DecidableEq

/-- The post-guard body of `search_memory_facts`: resolve the effective
group ids, call the external engine (`client.search`, embedded as an
explicit function whose `Except.error` models a raised exception), and
shape the response. -/
def search_memory_facts_body
    (engine : List String → String → Int → Option String → Except String (List String))
    (cfg_group_id : String) (query : String) (group_ids : Option (List String))
    (max_facts : Int) (center_node_uuid : Option String) : FactsResult :=
  let eff :=
    match group_ids with
    | some l => l
    | none => if cfg_group_id = "" then [] else [cfg_group_id]
  match engine eff query max_facts center_node_uuid with
  | Except.error e => FactsResult.failure ("Error searching facts: " ++ e)
  | Except.ok [] => FactsResult.facts "No relevant facts found" []
  | Except.ok edges => FactsResult.facts "Facts retrieved successfully" edges

/-- `search_memory_facts` (server.py lines 326-360): the
`max_facts <= 0` guard runs before any engine access. -/
def search_memory_facts
    (engine : List String → String → Int → Option String → Except String (List String))
    (cfg_group_id : String) (query : String) (group_ids : Option (List String))
    (max_facts : Int) (center_node_uuid : Option String) : FactsResult :=
  if max_facts ≤ 0 then FactsResult.failure "max_facts must be a positive integer"
  else search_memory_facts_body engine cfg_group_id query group_ids max_facts center_node_uuid

/-- `needle` occurs as a contiguous substring of `hay`. -/
def occurs_in (needle hay : String) : Prop :=
  ∃ a b : String, hay = a ++ needle ++ b

/-! ## Namespace task queue + bounded worker pool

Modelled from the spec: the repository imports `services.queue_service`
(`QueueService`), whose source file is not part of the reviewed tree, so
the queue is embedded from §3 "Namespace Queue State", §4.3 and §5 of the
specification: per-namespace FIFO queues of ingestion tasks, a
per-namespace in-flight flag (at most one task of a namespace executing),
and a worker pool bounded by a global concurrency limit `N`.  Executions
are traces of enqueue / start / complete events; `step` rejects any event
the spec forbids. -/

/-- An observable queue event.  Tasks are identified by a unique id
(each add-content call creates a fresh task, spec §3). -/
inductive QEvent
  | enqueue (ns : String) (tid : Nat)
  | start (ns : String) (tid : Nat)
  | complete (ns : String) (tid : Nat)
deriving DecidableEq

/-- Modelled from the spec: the shared queue state — per-namespace FIFO
queue, per-namespace in-flight task, number of busy workers, and the set
of task ids ever enqueued (tasks are created fresh per call). -/
structure QState where
  queues : String → List Nat
  inflight : String → Option Nat
  running : Nat
  used : List Nat

/-- The initial queue state: everything empty and idle. -/
def QInit : QState :=
  ⟨fun _ => [], fun _ => none, 0, []⟩

/-- Modelled from the spec (§4.3): one transition.
`enqueue` appends a fresh task to its namespace FIFO and never blocks;
`start` dispatches the head task of a namespace that has no in-flight
task, when a worker is free (`running < N`); `complete` is the worker
finishing (success or failure), clearing the in-flight flag. -/
def qstep (N : Nat) (s : QState) : QEvent → Option QState
  | QEvent.enqueue ns tid =>
    if tid ∈ s.used then none
    else some
      { queues := fun k => if k = ns then s.queues ns ++ [tid] else s.queues k
        inflight := s.inflight
        running := s.running
        used := tid :: s.used }
  | QEvent.start ns tid =>
    match s.queues ns, s.inflight ns with
    | t :: rest, none =>
      if t = tid ∧ s.running < N then
        some
          { queues := fun k => if k = ns then rest else s.queues k
            inflight := fun k => if k = ns then some tid else s.inflight k
            running := s.running + 1
            used := s.used }
      else none
    | _, _ => none
  | QEvent.complete ns tid =>
    match s.inflight ns with
    | some t =>
      if t = tid then
        some
          { queues := s.queues
            inflight := fun k => if k = ns then none else s.inflight k
            running := s.running - 1
            used := s.used }
      else none
    | none => none

/-- Run a trace of events from a state; `none` means the trace is not a
possible execution of the queue. -/
def qrun (N : Nat) (s : QState) : List QEvent → Option QState
  | [] => some s
  | e :: es =>
    match qstep N s e with
    | some s' => qrun N s' es
    | none => none

/-- The ids enqueued to namespace `ns` along a trace, in order. -/
def enqueued_in (es : List QEvent) (ns : String) : List Nat :=
  es.filterMap fun e =>
    match e with
    | QEvent.enqueue n t => if n = ns then some t else none
    | _ => none

/-- The ids whose execution started in namespace `ns`, in order. -/
def started_in (es : List QEvent) (ns : String) : List Nat :=
  es.filterMap fun e =>
    match e with
    | QEvent.start n t => if n = ns then some t else none
    | _ => none

/-- The ids whose execution completed in namespace `ns`, in order. -/
def completed_in (es : List QEvent) (ns : String) : List Nat :=
  es.filterMap fun e =>
    match e with
    | QEvent.complete n t => if n = ns then some t else none
    | _ => none

/-- All ids ever enqueued along a trace (any namespace). -/
def all_ids (es : List QEvent) : List Nat :=
  es.filterMap fun e =>
    match e with
    | QEvent.enqueue _ t => some t
    | _ => none

/-- The history invariant tying a reachable state to its trace: per
namespace, completions followed by the in-flight task are exactly the
started tasks, and started tasks followed by the pending queue are
exactly the enqueued tasks; ids are globally fresh. -/
def QInv (es : List QEvent) (s : QState) : Prop :=
  (∀ ns, completed_in es ns ++ (s.inflight ns).toList = started_in es ns) ∧
  (∀ ns, started_in es ns ++ s.queues ns = enqueued_in es ns) ∧
  (all_ids es).Nodup ∧
  (∀ t, t ∈ s.used ↔ t ∈ all_ids es)

/-! ## Queue lemmas -/

theorem qrun_append (N : Nat) (s : QState) (es es' : List QEvent) :
    qrun N s (es ++ es') = (qrun N s es).bind fun s' => qrun N s' es' := by
  induction es generalizing s with
  | nil => rfl
  | cons e es ih =>
    simp only [List.cons_append, qrun]
    cases qstep N s e with
    | none => rfl
    | some s' => exact ih s'

theorem enqueued_in_append (es es' : List QEvent) (ns : String) :
    enqueued_in (es ++ es') ns = enqueued_in es ns ++ enqueued_in es' ns :=
  List.filterMap_append ..

theorem started_in_append (es es' : List QEvent) (ns : String) :
    started_in (es ++ es') ns = started_in es ns ++ started_in es' ns :=
  List.filterMap_append ..

theorem completed_in_append (es es' : List QEvent) (ns : String) :
    completed_in (es ++ es') ns = completed_in es ns ++ completed_in es' ns :=
  List.filterMap_append ..

theorem all_ids_append (es es' : List QEvent) :
    all_ids (es ++ es') = all_ids es ++ all_ids es' :=
  List.filterMap_append ..

theorem enqueued_in_sublist_all_ids (es : List QEvent) (ns : String) :
    List.Sublist (enqueued_in es ns) (all_ids es) := by
  induction es with
  | nil => exact List.Sublist.refl _
  | cons e es ih =>
    cases e with
    | enqueue n t =>
      simp only [enqueued_in, all_ids, List.filterMap_cons] at *
      by_cases h : n = ns
      · simp only [h, if_pos rfl]
        exact ih.cons₂ t
      · simp only [if_neg h]
        exact ih.cons t
    | start n t => exact ih
    | complete n t => exact ih

theorem mem_completed_in (es : List QEvent) (ns : String) (t : Nat)
    (h : t ∈ completed_in es ns) : QEvent.complete ns t ∈ es := by
  simp only [completed_in, List.mem_filterMap] at h
  obtain ⟨e, he, hmatch⟩ := h
  cases e with
  | enqueue n t' => simp at hmatch
  | start n t' => simp at hmatch
  | complete n t' =>
    dsimp only at hmatch
    by_cases hn : n = ns
    · subst hn
      rw [if_pos rfl] at hmatch
      injection hmatch with h
      subst h
      exact he
    · simp [if_neg hn] at hmatch

@[simp]
theorem enqueued_in_singleton_enqueue (n : String) (t : Nat) (ns : String) :
    enqueued_in [QEvent.enqueue n t] ns = if n = ns then [t] else [] := by
  by_cases h : n = ns <;> simp [enqueued_in, h]

@[simp]
theorem enqueued_in_singleton_start (n : String) (t : Nat) (ns : String) :
    enqueued_in [QEvent.start n t] ns = [] := rfl

@[simp]
theorem enqueued_in_singleton_complete (n : String) (t : Nat) (ns : String) :
    enqueued_in [QEvent.complete n t] ns = [] := rfl

@[simp]
theorem started_in_singleton_enqueue (n : String) (t : Nat) (ns : String) :
    started_in [QEvent.enqueue n t] ns = [] := rfl

@[simp]
theorem started_in_singleton_start (n : String) (t : Nat) (ns : String) :
    started_in [QEvent.start n t] ns = if n = ns then [t] else [] := by
  by_cases h : n = ns <;> simp [started_in, h]

@[simp]
theorem started_in_singleton_complete (n : String) (t : Nat) (ns : String) :
    started_in [QEvent.complete n t] ns = [] := rfl

@[simp]
theorem completed_in_singleton_enqueue (n : String) (t : Nat) (ns : String) :
    completed_in [QEvent.enqueue n t] ns = [] := rfl

@[simp]
theorem completed_in_singleton_start (n : String) (t : Nat) (ns : String) :
    completed_in [QEvent.start n t] ns = [] := rfl

@[simp]
theorem completed_in_singleton_complete (n : String) (t : Nat) (ns : String) :
    completed_in [QEvent.complete n t] ns = if n = ns then [t] else [] := by
  by_cases h : n = ns <;> simp [completed_in, h]

@[simp]
theorem all_ids_singleton_enqueue (n : String) (t : Nat) :
    all_ids [QEvent.enqueue n t] = [t] := rfl

@[simp]
theorem all_ids_singleton_start (n : String) (t : Nat) :
    all_ids [QEvent.start n t] = [] := rfl

@[simp]
theorem all_ids_singleton_complete (n : String) (t : Nat) :
    all_ids [QEvent.complete n t] = [] := rfl

theorem qinv_step_enqueue (N : Nat) (es : List QEvent) (s s' : QState)
    (ns : String) (tid : Nat) (hinv : QInv es s)
    (h : qstep N s (QEvent.enqueue ns tid) = some s') :
    QInv (es ++ [QEvent.enqueue ns tid]) s' := by
  obtain ⟨h1, h2, h3, h4⟩ := hinv
  simp only [qstep] at h
  by_cases hu : tid ∈ s.used
  · rw [if_pos hu] at h
    exact absurd h (by simp)
  · rw [if_neg hu] at h
    injection h with h
    subst h
    have htid : tid ∉ all_ids es := fun hm => hu ((h4 tid).mpr hm)
    refine ⟨?_, ?_, ?_, ?_⟩
    · intro ns'
      rw [completed_in_append, started_in_append]
      simp only [completed_in_singleton_enqueue, started_in_singleton_enqueue,
        List.append_nil]
      exact h1 ns'
    · intro ns'
      rw [started_in_append, enqueued_in_append]
      simp only [started_in_singleton_enqueue, enqueued_in_singleton_enqueue,
        List.append_nil]
      by_cases hns : ns' = ns
      · subst hns
        rw [if_pos rfl, if_pos rfl, ← List.append_assoc, h2 ns']
      · have hns' : ¬ ns = ns' := fun hx => hns hx.symm
        simp only [if_neg hns, if_neg hns', List.append_nil]
        exact h2 ns'
    · rw [all_ids_append, all_ids_singleton_enqueue]
      simp only [List.nodup_append, List.nodup_singleton, true_and, h3]
      simp [List.Disjoint, htid]
      intro a ha hx
      subst hx
      exact htid ha
    · intro t
      rw [all_ids_append, all_ids_singleton_enqueue]
      simp only [List.mem_cons, List.mem_append, List.mem_singleton, h4 t]
      tauto

theorem qinv_step_start (N : Nat) (es : List QEvent) (s s' : QState)
    (ns : String) (tid : Nat) (hinv : QInv es s)
    (h : qstep N s (QEvent.start ns tid) = some s') :
    QInv (es ++ [QEvent.start ns tid]) s' := by
  obtain ⟨h1, h2, h3, h4⟩ := hinv
  simp only [qstep] at h
  cases hq : s.queues ns with
  | nil => rw [hq] at h; exact absurd h (by simp)
  | cons t rest =>
  cases hi : s.inflight ns with
  | some x => rw [hq, hi] at h; exact absurd h (by simp)
  | none =>
  rw [hq, hi] at h
  dsimp only at h
  by_cases hg : t = tid ∧ s.running < N
  · rw [if_pos hg] at h
    injection h with h
    subst h
    obtain ⟨htt, _⟩ := hg
    subst htt
    refine ⟨?_, ?_, ?_, ?_⟩
    · intro ns'
      rw [completed_in_append, started_in_append]
      simp only [completed_in_singleton_start, started_in_singleton_start,
        List.append_nil]
      by_cases hns : ns' = ns
      · subst hns
        rw [if_pos rfl, if_pos rfl]
        have := h1 ns'
        rw [hi] at this
        simp only [Option.toList_none, List.append_nil] at this
        simp only [Option.toList_some]
        rw [this]
      · have hns' : ¬ ns = ns' := fun hx => hns hx.symm
        rw [if_neg hns, if_neg hns', List.append_nil]
        exact h1 ns'
    · intro ns'
      rw [started_in_append, enqueued_in_append]
      simp only [started_in_singleton_start, enqueued_in_singleton_start,
        List.append_nil]
      by_cases hns : ns' = ns
      · subst hns
        rw [if_pos rfl, if_pos rfl]
        have := h2 ns'
        rw [hq] at this
        rw [List.append_assoc]
        simpa using this
      · have hns' : ¬ ns = ns' := fun hx => hns hx.symm
        rw [if_neg hns, if_neg hns', List.append_nil]
        exact h2 ns'
    · rw [all_ids_append, all_ids_singleton_start, List.append_nil]
      exact h3
    · intro u
      rw [all_ids_append, all_ids_singleton_start, List.append_nil]
      exact h4 u
  · rw [if_neg hg] at h
    exact absurd h (by simp)

theorem qinv_step_complete (N : Nat) (es : List QEvent) (s s' : QState)
    (ns : String) (tid : Nat) (hinv : QInv es s)
    (h : qstep N s (QEvent.complete ns tid) = some s') :
    QInv (es ++ [QEvent.complete ns tid]) s' := by
  obtain ⟨h1, h2, h3, h4⟩ := hinv
  simp only [qstep] at h
  cases hi : s.inflight ns with
  | none => rw [hi] at h; exact absurd h (by simp)
  | some t =>
  rw [hi] at h
  dsimp only at h
  by_cases hg : t = tid
  · rw [if_pos hg] at h
    injection h with h
    subst h
    subst hg
    refine ⟨?_, ?_, ?_, ?_⟩
    · intro ns'
      rw [completed_in_append, started_in_append]
      simp only [completed_in_singleton_complete, started_in_singleton_complete,
        List.append_nil]
      by_cases hns : ns' = ns
      · subst hns
        rw [if_pos rfl, if_pos rfl]
        have := h1 ns'
        rw [hi] at this
        simp only [Option.toList_some] at this
        simp only [Option.toList_none, List.append_nil]
        exact this
      · have hns' : ¬ ns = ns' := fun hx => hns hx.symm
        rw [if_neg hns, if_neg hns', List.append_nil]
        exact h1 ns'
    · intro ns'
      rw [started_in_append, enqueued_in_append]
      simp only [started_in_singleton_complete, enqueued_in_singleton_complete,
        List.append_nil]
      exact h2 ns'
    · rw [all_ids_append, all_ids_singleton_complete, List.append_nil]
      exact h3
    · intro u
      rw [all_ids_append, all_ids_singleton_complete, List.append_nil]
      exact h4 u
  · rw [if_neg hg] at h
    exact absurd h (by simp)

theorem qinv_qrun (N : Nat) (es : List QEvent) (s : QState)
    (h : qrun N QInit es = some s) : QInv es s := by
  induction es using List.reverseRecOn generalizing s with
  | nil =>
    injection h with h
    subst h
    refine ⟨fun ns => rfl, fun ns => rfl, List.nodup_nil, fun t => by simp [QInit, all_ids]⟩
  | append_singleton es e ih =>
    rw [qrun_append] at h
    cases hp : qrun N QInit es with
    | none => rw [hp] at h; exact absurd h (by simp)
    | some s0 =>
      rw [hp] at h
      have h' : qrun N s0 [e] = some s := h
      have hstep : qstep N s0 e = some s := by
        simp only [qrun] at h'
        cases hs : qstep N s0 e with
        | none => rw [hs] at h'; exact absurd h' (by simp)
        | some s1 =>
          rw [hs] at h'
          simp only [qrun] at h'
          injection h' with h'
          subst h'
          rfl
      have hinv := ih s0 hp
      cases e with
      | enqueue n t => exact qinv_step_enqueue N es s0 s n t hinv hstep
      | start n t => exact qinv_step_start N es s0 s n t hinv hstep
      | complete n t => exact qinv_step_complete N es s0 s n t hinv hstep

theorem mem_left_of_before_head (u v a w : List Nat) (t1 t2 : Nat)
    (hE : (u ++ t1 :: v).Nodup) (h2 : t2 ∈ v) (h3 : u ++ t1 :: v = a ++ t2 :: w) :
    t1 ∈ a := by
  have hnd : (t1 :: v).Nodup := (List.nodup_append.mp hE).2.1
  have ht1v : t1 ∉ v := (List.nodup_cons.mp hnd).1
  rcases List.append_eq_append_iff.mp h3 with ⟨a', ha, hb⟩ | ⟨c', hc, hd⟩
  · cases a' with
    | nil =>
      simp only [List.nil_append] at hb
      injection hb with he hv
      subst he
      subst hv
      exact absurd h2 ht1v
    | cons x a'' =>
      injection hb with he hv
      subst he
      rw [ha]
      simp
  · cases c' with
    | nil =>
      simp only [List.nil_append] at hd
      injection hd with he hv
      subst he
      subst hv
      exact absurd h2 ht1v
    | cons x c'' =>
      injection hd with he hv
      subst he
      have ht2u : t2 ∈ u := by
        rw [hc]
        simp
      have hdisj := (List.nodup_append.mp hE).2.2
      exact absurd (hdisj ht2u (by simp [h2])) (by simp)

/-- C3: For every namespace and every pair of ingestion tasks `t1`, `t2`
enqueued to that namespace with `t1` enqueued before `t2` (`t1` precedes
`t2` in the namespace's enqueue history), in every possible execution of
the queue, `t2` begins execution only after `t1` has completed (success
or failure): a `complete ns t1` event occurs strictly before the
`start ns t2` event, so tasks of one namespace run in submission order
and never overlap in time.  (Queue modelled from the spec, §3/§4.3/§5.) -/
theorem namespace_fifo_no_overlap (N : Nat) (P rest : List QEvent)
    (ns : String) (t1 t2 : Nat) (u v : List Nat)
    (hvalid : (qrun N QInit (P ++ QEvent.start ns t2 :: rest)).isSome = true)
    (horder : enqueued_in (P ++ QEvent.start ns t2 :: rest) ns = u ++ t1 :: v)
    (hmem : t2 ∈ v) :
    QEvent.complete ns t1 ∈ P := by
  obtain ⟨sfin, hfin⟩ := Option.isSome_iff_exists.mp hvalid
  rw [qrun_append] at hfin
  cases hP : qrun N QInit P with
  | none => rw [hP] at hfin; exact absurd hfin (by simp)
  | some s =>
  rw [hP] at hfin
  have hrest : qrun N s (QEvent.start ns t2 :: rest) = some sfin := hfin
  simp only [qrun] at hrest
  have hstep : ∃ s1, qstep N s (QEvent.start ns t2) = some s1 := by
    cases hs : qstep N s (QEvent.start ns t2) with
    | none => rw [hs] at hrest; exact absurd hrest (by simp)
    | some s1 => exact ⟨s1, rfl⟩
  obtain ⟨s1, hs1⟩ := hstep
  simp only [qstep] at hs1
  obtain ⟨h1, h2, _, _⟩ := qinv_qrun N P s hP
  cases hq : s.queues ns with
  | nil => rw [hq] at hs1; exact absurd hs1 (by simp)
  | cons t q' =>
  cases hi : s.inflight ns with
  | some x => rw [hq, hi] at hs1; exact absurd hs1 (by simp)
  | none =>
  rw [hq, hi] at hs1
  dsimp only at hs1
  by_cases hg : t = t2 ∧ s.running < N
  case neg => rw [if_neg hg] at hs1; exact absurd hs1 (by simp)
  case pos =>
  obtain ⟨htt, _⟩ := hg
  rw [htt] at hq
  have hfull : (qrun N QInit (P ++ QEvent.start ns t2 :: rest)).isSome = true := hvalid
  obtain ⟨sfin', hfin'⟩ := Option.isSome_iff_exists.mp hfull
  obtain ⟨_, _, h3full, _⟩ := qinv_qrun N _ sfin' hfin'
  have hnd : (enqueued_in (P ++ QEvent.start ns t2 :: rest) ns).Nodup :=
    (enqueued_in_sublist_all_ids _ ns).nodup h3full
  have hdecomp : enqueued_in (P ++ QEvent.start ns t2 :: rest) ns
      = started_in P ns ++ t2 :: (q' ++ enqueued_in rest ns) := by
    have hcons : enqueued_in (QEvent.start ns t2 :: rest) ns = enqueued_in rest ns := rfl
    rw [enqueued_in_append, hcons, ← h2 ns, hq]
    simp
  have ht1 : t1 ∈ started_in P ns := by
    refine mem_left_of_before_head u v (started_in P ns)
      (q' ++ enqueued_in rest ns) t1 t2 ?_ hmem ?_
    · rw [← horder]; exact hnd
    · rw [← horder]; exact hdecomp
  have hcs : completed_in P ns = started_in P ns := by
    have := h1 ns
    rw [hi] at this
    simpa using this
  rw [← hcs] at ht1
  exact mem_completed_in P ns t1 ht1

/-- Witness for C3: in the concrete single-worker trace
enqueue 1, enqueue 2, start 1, complete 1, start 2 on namespace "a",
task 1's completion indeed lies in the part of the trace before task 2
starts. -/
theorem namespace_fifo_no_overlap_witness :
    QEvent.complete "a" 1 ∈
      [QEvent.enqueue "a" 1, QEvent.enqueue "a" 2,
       QEvent.start "a" 1, QEvent.complete "a" 1] :=
  namespace_fifo_no_overlap 1
    [QEvent.enqueue "a" 1, QEvent.enqueue "a" 2,
     QEvent.start "a" 1, QEvent.complete "a" 1]
    [] "a" 1 2 [] [2] (by rfl) (by rfl) (by decide)

/-! ## Authentication claims -/

theorem take_eight_length_le (s : String) : (s.take 8).length ≤ 8 := by
  rw [String.take_eq]
  show (s.data.take 8).length ≤ 8
  simp [List.length_take]

theorem truncate_token_cases (t : String) :
    truncate_token t = t.take 8 ++ "..." ∨ truncate_token t = "invalid" := by
  unfold truncate_token
  by_cases h : t.length > 8
  · rw [if_pos h]; exact Or.inl rfl
  · rw [if_neg h]; exact Or.inr rfl

/-- C1: on the Execute path (`on_call_tool`), a well-formed bearer header
whose token is not in the principal store fails with the Unauthenticated
`McpError` before the tool handler runs (the outcome is this error for
every handler `next`), and the single log line records the truncated
token: either the first 8 characters followed by the constant "..." or
the constant "invalid" — never more than the first 8 characters of the
token. -/
theorem execute_unknown_token_unauthenticated {α : Type} (svc : AuthService)
    (hs : Headers) (has_ctx : Bool) (next : Option Principal → α)
    (hne : get_auth_header hs ≠ "")
    (hpre : starts_with (get_auth_header hs) "Bearer " = true)
    (hno : validate_token svc ((get_auth_header hs).drop 7) = none) :
    on_call_tool svc (some hs) has_ctx next
      = (Except.error ⟨-32000, "Invalid or expired API key"⟩,
         ["Authentication failed: Invalid token="
            ++ truncate_token ((get_auth_header hs).drop 7)])
    ∧ (truncate_token ((get_auth_header hs).drop 7)
         = ((get_auth_header hs).drop 7).take 8 ++ "..."
       ∨ truncate_token ((get_auth_header hs).drop 7) = "invalid")
    ∧ (((get_auth_header hs).drop 7).take 8).length ≤ 8 := by
  have hauth : authenticate svc (some hs)
      = (Except.error ⟨-32000, "Invalid or expired API key"⟩,
         ["Authentication failed: Invalid token="
            ++ truncate_token ((get_auth_header hs).drop 7)]) := by
    unfold authenticate
    dsimp only
    rw [if_neg hne, if_pos hpre, hno]
  refine ⟨?_, truncate_token_cases _, take_eight_length_le _⟩
  unfold on_call_tool
  rw [hauth]

/-- Witness for C1 at a concrete input: empty principal store, header
`Bearer tok123456789` (token of length 12, so the log keeps 8 chars). -/
theorem execute_unknown_token_unauthenticated_witness :
    on_call_tool ([] : AuthService)
        (some [("authorization", "Bearer tok123456789")]) true
        (fun _ => (0 : Nat))
      = (Except.error ⟨-32000, "Invalid or expired API key"⟩,
         ["Authentication failed: Invalid token="
            ++ truncate_token ((get_auth_header
                 [("authorization", "Bearer tok123456789")]).drop 7)])
    ∧ (truncate_token ((get_auth_header
           [("authorization", "Bearer tok123456789")]).drop 7)
         = ((get_auth_header
              [("authorization", "Bearer tok123456789")]).drop 7).take 8 ++ "..."
       ∨ truncate_token ((get_auth_header
            [("authorization", "Bearer tok123456789")]).drop 7) = "invalid")
    ∧ (((get_auth_header
          [("authorization", "Bearer tok123456789")]).drop 7).take 8).length ≤ 8 :=
  execute_unknown_token_unauthenticated [] _ true _ (by decide) (by decide) rfl

/-- C4 counterexample: the claim says the Handshake path swallows
authentication failures and proceeds without a principal, but
`on_initialize` authenticates with no try/except: with no Authorization
header the call is aborted with the Unauthenticated error, and in
particular does not return the handler's value. -/
theorem handshake_not_permissive_counterexample :
    on_handshake ([] : AuthService) (some ([] : Headers)) true (fun _ => (0 : Nat))
      = (Except.error ⟨-32000, "Missing Authorization header"⟩,
         ["Authentication failed: Missing Authorization header"])
    ∧ (on_handshake ([] : AuthService) (some ([] : Headers)) true
        (fun _ => (0 : Nat))).1 ≠ Except.ok 0 := by
  exact ⟨rfl, fun h => Except.noConfusion h⟩

/-- C4 (amended): every authentication failure on the Discover path
(`on_list_tools`) is swallowed and the call proceeds without a principal,
and on success the principal is attached, exactly as claimed; the
Handshake path (`on_initialize`), however, is strict like the Execute
path: an authentication failure aborts the call with the same error. -/
theorem discover_permissive_handshake_strict {α : Type} (svc : AuthService)
    (headers : Option Headers) (has_ctx : Bool) (next : Option Principal → α) :
    (∀ e log, authenticate svc headers = (Except.error e, log) →
        on_list_tools svc headers has_ctx next
          = (Except.ok (next none), log ++ ["Allowing unauthenticated tool listing"])
        ∧ on_handshake svc headers has_ctx next = (Except.error e, log))
    ∧ (∀ p log, authenticate svc headers = (Except.ok p, log) →
        on_list_tools svc headers has_ctx next
          = (Except.ok (next (if has_ctx then some p else none)), log)
        ∧ on_handshake svc headers has_ctx next
          = (Except.ok (next (if has_ctx then some p else none)), log)) := by
  constructor
  · intro e log h
    constructor
    · unfold on_list_tools
      rw [h]
    · unfold on_handshake
      rw [h]
  · intro p log h
    constructor
    · unfold on_list_tools
      rw [h]
    · unfold on_handshake
      rw [h]

/-- Witness for C4 (amended), at the concrete input of an empty header
map: Discover proceeds without a principal, Handshake aborts. -/
theorem discover_permissive_handshake_strict_witness :
    on_list_tools ([] : AuthService) (some ([] : Headers)) true (fun _ => (0 : Nat))
      = (Except.ok 0,
         ["Authentication failed: Missing Authorization header",
          "Allowing unauthenticated tool listing"])
    ∧ on_handshake ([] : AuthService) (some ([] : Headers)) true (fun _ => (0 : Nat))
      = (Except.error ⟨-32000, "Missing Authorization header"⟩,
         ["Authentication failed: Missing Authorization header"]) :=
  (discover_permissive_handshake_strict [] (some []) true (fun _ => 0)).1
    ⟨-32000, "Missing Authorization header"⟩
    ["Authentication failed: Missing Authorization header"] rfl

/-! ## Authorization claims -/

theorem is_tool_allowed_iff (policies : Policies) (role tool : String) :
    is_tool_allowed policies role tool = true
      ↔ ∃ allowed, policies.lookup role = some allowed
          ∧ ("*" ∈ allowed ∨ tool ∈ allowed) := by
  unfold is_tool_allowed
  cases hl : policies.lookup role with
  | none => simp
  | some allowed =>
    by_cases hw : allowed.contains "*"
    · simp only [hw, if_pos]
      constructor
      · intro _
        exact ⟨allowed, rfl, Or.inl (by simpa using hw)⟩
      · intro _
        trivial
    · simp only [hw, if_neg, Bool.false_eq_true, if_false]
      constructor
      · intro h
        exact ⟨allowed, rfl, Or.inr (by simpa using h)⟩
      · rintro ⟨allowed', ha, h⟩
        injection ha with ha
        subst ha
        rcases h with h | h
        · exact absurd (by simpa using h : allowed.contains "*" = true) hw
        · simpa using h

/-- C2: for an authenticated principal with a nonempty role `r` and an
operation name `t`, the authorization gate permits the call iff the
policy table has an entry for `r` containing the wildcard "*" or `t`
itself; when `r` has no entry or its entry contains neither, the call
fails with the Forbidden error. -/
theorem authorization_permits_iff_policy {α : Type} (policies : Policies)
    (p : Principal) (t : String) (next : Unit → α) (hrole : p.role ≠ "") :
    (is_tool_allowed policies p.role t = true
       ↔ ∃ allowed, policies.lookup p.role = some allowed
           ∧ ("*" ∈ allowed ∨ t ∈ allowed))
    ∧ (is_tool_allowed policies p.role t = true →
        authz_on_call_tool policies (some p) (some t) next
          = (Except.ok (next ()), []))
    ∧ (is_tool_allowed policies p.role t = false →
        authz_on_call_tool policies (some p) (some t) next
          = (Except.error ⟨-32000, access_denied_message t p.role⟩,
             [access_denied_log p.role t p.user_id])) := by
  refine ⟨is_tool_allowed_iff policies p.role t, ?_, ?_⟩
  · intro h
    simp only [authz_on_call_tool]
    rw [if_neg hrole, if_pos h]
  · intro h
    simp only [authz_on_call_tool]
    rw [if_neg hrole, if_neg (by simp [h])]

/-- Witness for C2 at the concrete policy table
`readonly -> [get_status]`: `get_status` is permitted, `add_content`
is denied with the Forbidden error. -/
theorem authorization_permits_iff_policy_witness :
    (is_tool_allowed [("readonly", ["get_status"])] ("readonly") "get_status" = true
       ↔ ∃ allowed,
           ([("readonly", ["get_status"])] : Policies).lookup "readonly" = some allowed
           ∧ ("*" ∈ allowed ∨ "get_status" ∈ allowed))
    ∧ (is_tool_allowed [("readonly", ["get_status"])] "readonly" "get_status" = true →
        authz_on_call_tool [("readonly", ["get_status"])]
            (some ⟨"u1", "readonly"⟩) (some "get_status") (fun _ => (0 : Nat))
          = (Except.ok 0, []))
    ∧ (is_tool_allowed [("readonly", ["get_status"])] "readonly" "get_status" = false →
        authz_on_call_tool [("readonly", ["get_status"])]
            (some ⟨"u1", "readonly"⟩) (some "get_status") (fun _ => (0 : Nat))
          = (Except.error ⟨-32000, access_denied_message "get_status" "readonly"⟩,
             [access_denied_log "readonly" "get_status" "u1"])) :=
  authorization_permits_iff_policy [("readonly", ["get_status"])]
    ⟨"u1", "readonly"⟩ "get_status" (fun _ => 0) (by decide)

/-- C5 counterexample: the claim says the error returned to the
untrusted caller does not include the role and operation name, but for
the policy table `readonly -> [get_status]` a denied `add_content` call
raises an `McpError` whose caller-visible message contains both
"readonly" and "add_content". -/
theorem denial_reaches_caller_counterexample :
    (authz_on_call_tool [("readonly", ["get_status"])]
        (some ⟨"user1", "readonly"⟩) (some "add_content") (fun _ => (0 : Nat))).1
      = Except.error ⟨-32000,
          "Access denied: tool \"add_content\" not allowed for role \"readonly\""⟩
    ∧ occurs_in "readonly"
        "Access denied: tool \"add_content\" not allowed for role \"readonly\""
    ∧ occurs_in "add_content"
        "Access denied: tool \"add_content\" not allowed for role \"readonly\"" := by
  refine ⟨rfl, ?_, ?_⟩
  · exact ⟨"Access denied: tool \"add_content\" not allowed for role \"", "\"", by rfl⟩
  · exact ⟨"Access denied: tool \"", "\" not allowed for role \"readonly\"", by rfl⟩

/-- C5 (amended): when authorization denies an operation because the
role's allow-list does not contain it, the role and operation name
appear in the server log AND in the error message returned to the
caller — the code sends the same identifying detail to the untrusted
caller instead of hiding it. -/
theorem denial_names_role_and_tool {α : Type} (policies : Policies)
    (p : Principal) (t : String) (next : Unit → α)
    (hrole : p.role ≠ "") (hdeny : is_tool_allowed policies p.role t = false) :
    authz_on_call_tool policies (some p) (some t) next
      = (Except.error ⟨-32000, access_denied_message t p.role⟩,
         [access_denied_log p.role t p.user_id])
    ∧ occurs_in p.role (access_denied_message t p.role)
    ∧ occurs_in t (access_denied_message t p.role)
    ∧ occurs_in p.role (access_denied_log p.role t p.user_id)
    ∧ occurs_in t (access_denied_log p.role t p.user_id) := by
  refine ⟨?_, ?_, ?_, ?_, ?_⟩
  · simp only [authz_on_call_tool]
    rw [if_neg hrole, if_neg (by simp [hdeny])]
  · exact ⟨"Access denied: tool \"" ++ t ++ "\" not allowed for role \"", "\"", rfl⟩
  · refine ⟨"Access denied: tool \"",
      "\" not allowed for role \"" ++ p.role ++ "\"", ?_⟩
    unfold access_denied_message
    simp [String.append_assoc]
  · refine ⟨"Access denied: role=", ", tool=" ++ t ++ ", user=" ++ p.user_id, ?_⟩
    unfold access_denied_log
    simp [String.append_assoc]
  · refine ⟨"Access denied: role=" ++ p.role ++ ", tool=",
      ", user=" ++ p.user_id, ?_⟩
    unfold access_denied_log
    simp [String.append_assoc]

/-- Witness for C5 (amended) at the concrete denied call of the
counterexample. -/
theorem denial_names_role_and_tool_witness :
    authz_on_call_tool [("readonly", ["get_status"])]
        (some ⟨"user1", "readonly"⟩) (some "add_content") (fun _ => (0 : Nat))
      = (Except.error ⟨-32000, access_denied_message "add_content" "readonly"⟩,
         [access_denied_log "readonly" "add_content" "user1"])
    ∧ occurs_in "readonly" (access_denied_message "add_content" "readonly")
    ∧ occurs_in "add_content" (access_denied_message "add_content" "readonly")
    ∧ occurs_in "readonly" (access_denied_log "readonly" "add_content" "user1")
    ∧ occurs_in "add_content" (access_denied_log "readonly" "add_content" "user1") :=
  denial_names_role_and_tool [("readonly", ["get_status"])]
    ⟨"user1", "readonly"⟩ "add_content" (fun _ => 0) (by decide) (by decide)

/-- C6: when the policy file is missing or malformed at startup
(`load_policies` of `none`), the policy table is empty, every role
lookup fails, and every Execute-path call carrying a principal with a
role and an extractable operation name is denied with the Forbidden
error: the system fails closed. -/
theorem empty_policy_fails_closed :
    load_policies none = ([] : Policies)
    ∧ (∀ role tool, is_tool_allowed (load_policies none) role tool = false)
    ∧ (∀ (α : Type) (p : Principal) (t : String) (next : Unit → α),
        p.role ≠ "" →
        authz_on_call_tool (load_policies none) (some p) (some t) next
          = (Except.error ⟨-32000, access_denied_message t p.role⟩,
             [access_denied_log p.role t p.user_id])) := by
  refine ⟨rfl, fun role tool => rfl, ?_⟩
  intro α p t next hrole
  simp only [authz_on_call_tool]
  rw [if_neg hrole, if_neg (by simp [is_tool_allowed, load_policies])]

/-- Witness for C6 at a concrete principal and operation name. -/
theorem empty_policy_fails_closed_witness :
    authz_on_call_tool (load_policies none)
        (some ⟨"u1", "admin"⟩) (some "add_content") (fun _ => (0 : Nat))
      = (Except.error ⟨-32000, access_denied_message "add_content" "admin"⟩,
         [access_denied_log "admin" "add_content" "u1"]) :=
  empty_policy_fails_closed.2.2 Nat ⟨"u1", "admin"⟩ "add_content"
    (fun _ => 0) (by decide)

/-- C7: on the Execute path, when no principal is present in context the
authorization gate permits the call unchanged for every policy table —
the outcome is `next ()` with no error and no log, independent of
`policies`, so the gate neither raises Forbidden nor consults the
policy table. -/
theorem no_principal_passthrough {α : Type} (policies : Policies)
    (tool_name : Option String) (next : Unit → α) :
    authz_on_call_tool policies none tool_name next = (Except.ok (next ()), []) := rfl

/-! ## Tool-handler claims -/

/-- C8: an `add_memory` call whose source kind names no known episode
kind does not fail on that account: the kind falls back to `text` with a
warning, exactly one task is enqueued, and the caller receives the
"queued for processing" acknowledgement. -/
theorem unknown_kind_falls_back_to_text (cfg_group_id : String)
    (queue : List EpisodeTask) (name episode_body : String)
    (group_id : Option String) (source : String) (source_description : String)
    (uuid : Option String) (hname : source ≠ "")
    (hunknown : episode_type_of_name (lower source) = none) :
    add_memory cfg_group_id queue name episode_body group_id source
        source_description uuid
      = (ToolResponse.success
           (add_memory_ack name (effective_group_id cfg_group_id group_id)),
         queue ++ [⟨effective_group_id cfg_group_id group_id, name, episode_body,
                    source_description, EpisodeType.text, norm_uuid uuid⟩],
         [unknown_source_warning source])
    ∧ occurs_in "queued for processing"
        (add_memory_ack name (effective_group_id cfg_group_id group_id)) := by
  have hres : resolve_episode_type source
      = (EpisodeType.text, [unknown_source_warning source]) := by
    unfold resolve_episode_type
    rw [if_neg hname, hunknown]
  constructor
  · unfold add_memory
    rw [hres]
  · refine ⟨"Episode \x27" ++ name ++ "\x27 ",
      " in group \x27" ++ effective_group_id cfg_group_id group_id ++ "\x27", ?_⟩
    unfold add_memory_ack
    have hsplit : ("\x27 queued for processing in group \x27" : String)
        = "\x27 " ++ "queued for processing" ++ " in group \x27" := rfl
    rw [hsplit]
    simp only [String.append_assoc]

/-- Witness for C8 at the concrete unknown kind "markdown". -/
theorem unknown_kind_falls_back_to_text_witness :
    add_memory "g0" [] "n1" "body" none "markdown" "desc" none
      = (ToolResponse.success (add_memory_ack "n1" (effective_group_id "g0" none)),
         [⟨effective_group_id "g0" none, "n1", "body", "desc",
           EpisodeType.text, norm_uuid none⟩],
         [unknown_source_warning "markdown"])
    ∧ occurs_in "queued for processing"
        (add_memory_ack "n1" (effective_group_id "g0" none)) :=
  unknown_kind_falls_back_to_text "g0" [] "n1" "body" none "markdown" "desc"
    none (by decide) rfl

/-- C9: evaluation of `clear_graph` at the failing input.  With no
configured default group id, a call that explicitly supplies the
non-empty namespace list ["alpha"] is rejected with the
"No group IDs specified" error and deletes nothing — the Python
conditional-expression precedence discards the explicit list — whereas
with a configured default the same explicit list is honoured. -/
theorem clear_graph_ignores_explicit_ids :
    clear_graph "" (some ["alpha"])
      = (ToolResponse.error "No group IDs specified for clearing", [])
    ∧ clear_graph "g0" (some ["alpha"])
      = (ToolResponse.success "Graph data cleared for group IDs: alpha", ["alpha"]) :=
  ⟨rfl, rfl⟩

/-- C10: a `search_memory_facts` call with a zero or negative limit
returns the "max_facts must be a positive integer" error without
contacting the external graph engine (the result is the same for every
engine), and with a positive limit the guard passes and the call
proceeds to the engine path. -/
theorem nonpositive_limit_rejected_before_engine
    (engine engine2 : List String → String → Int → Option String → Except String (List String))
    (cfg_group_id query : String) (group_ids : Option (List String))
    (max_facts : Int) (center : Option String) :
    (max_facts ≤ 0 →
      search_memory_facts engine cfg_group_id query group_ids max_facts center
        = FactsResult.failure "max_facts must be a positive integer"
      ∧ search_memory_facts engine cfg_group_id query group_ids max_facts center
        = search_memory_facts engine2 cfg_group_id query group_ids max_facts center)
    ∧ (0 < max_facts →
      search_memory_facts engine cfg_group_id query group_ids max_facts center
        = search_memory_facts_body engine cfg_group_id query group_ids
            max_facts center) := by
  constructor
  · intro h
    constructor
    · unfold search_memory_facts
      rw [if_pos h]
    · unfold search_memory_facts
      rw [if_pos h, if_pos h]
  · intro h
    unfold search_memory_facts
    rw [if_neg (by omega)]

/-- Witness for C10 at the concrete limits 0 (rejected) and 5
(guard passes), with a trivial engine. -/
theorem nonpositive_limit_rejected_before_engine_witness :
    (search_memory_facts (fun _ _ _ _ => Except.ok []) "" "q" none 0 none
       = FactsResult.failure "max_facts must be a positive integer")
    ∧ (search_memory_facts (fun _ _ _ _ => Except.ok []) "" "q" none 5 none
       = search_memory_facts_body (fun _ _ _ _ => Except.ok []) "" "q" none 5 none) :=
  ⟨((nonpositive_limit_rejected_before_engine (fun _ _ _ _ => Except.ok [])
      (fun _ _ _ _ => Except.ok []) "" "q" none 0 none).1 (by decide)).1,
   (nonpositive_limit_rejected_before_engine (fun _ _ _ _ => Except.ok [])
      (fun _ _ _ _ => Except.ok []) "" "q" none 5 none).2 (by decide)⟩

end Graphiti
